import Mathlib

set_option maxHeartbeats 1000000

/-!
Verification development for the inventory synchronization app.

The definitions below are a shallow embedding of the two source files:
* `src/app/utils/inventory.jsx` — the webhook handler `handleInventoryUpdate`
  (incremental single-location update with bootstrap rebuild), and
* `src/app/routes/app._index.jsx` — the bulk sync orchestrator
  `processVariantsInBackground`, the concurrency helper `parallelLimit`
  and the Remix `action` (start / getProgress surface).

External collaborators (the GraphQL admin client, JSON.parse of the stored
metafield string, webhook payload scalars) are modelled as explicit inputs:
an environment record carries the responses the code would receive, and the
outcome of `JSON.parse` on the stored metafield value is represented by the
`StoredValue` type (absent / empty-string / malformed / well-formed).
JavaScript exceptions are modelled with `Except String`.
-/

deriving instance DecidableEq for Except

/-- Value of a list of decimal digit characters, most significant first
(how a digit prefix accumulates in a hand-rolled parse). -/
def digitsVal (ds : List Char) : Nat :=
  ds.foldl (fun acc c => acc * 10 + (c.toNat - 48)) 0

/-- Maximal leading run of decimal digits of a character list; `none` when the
list does not start with a digit. -/
def leadingDigits (cs : List Char) : Option Nat :=
  let ds := cs.takeWhile Char.isDigit
  if ds.isEmpty then none else some (digitsVal ds)

/-- Whitespace trim on a character list (both ends), as `parseInt` performs
on its argument before parsing. -/
def jsTrimChars (cs : List Char) : List Char :=
  ((cs.dropWhile Char.isWhitespace).reverse.dropWhile Char.isWhitespace).reverse

/-- Model of JavaScript `parseInt(s, 10)`: trim whitespace, optional sign,
then the maximal decimal-digit prefix; `none` models `NaN`. -/
def jsParseInt (s : String) : Option Int :=
  match jsTrimChars s.toList with
  | '-' :: rest => (leadingDigits rest).map (fun v => -(v : Int))
  | '+' :: rest => (leadingDigits rest).map (fun v => (v : Int))
  | cs => (leadingDigits cs).map (fun v => (v : Int))

/-- Model of the JavaScript expression `q || 0` on a number `q`
(`0` is falsy, every other integer is truthy). -/
def jsOrZeroInt (q : Int) : Int :=
  if q == 0 then 0 else q

/-- Model of `x?.quantity || 0` where `x` may be `undefined`
(`none` models the undefined case). -/
def jsOrIntZero (o : Option Int) : Int :=
  match o with
  | none => 0
  | some q => jsOrZeroInt q

/-- Model of JavaScript strict equality `===` between two numbers where
`none` models `NaN`: `NaN === x` is false for every `x`, including `NaN`. -/
def jsEqId : Option Int → Option Int → Bool
  | some a, some b => a == b
  | _, _ => false

/-- Characters after the last occurrence of a separator (the whole list when
the separator does not occur): the last element of `split(sep)`. -/
def lastSegment (sep : Char) (cs : List Char) : List Char :=
  cs.foldl (fun acc c => if c = sep then [] else acc ++ [c]) []

/-- Model of `parseInt(gid.split('/').pop(), 10)`: the numeric id extracted
from the last segment of an opaque `gid://...` reference. -/
def gidNumericId (gid : String) : Option Int :=
  jsParseInt (String.mk (lastSegment '/' gid.toList))

/-- Scalar of a webhook payload field that may arrive as a number or as a
string (the `available` field of the notification payload). -/
inductive JsPrim where
  | num (i : Int)
  | str (s : String)
deriving DecidableEq

/-- Model of `parseInt(v, 10)` on a payload scalar: a number parses to itself,
a string goes through `jsParseInt`; `none` models `NaN`. -/
def jsParseIntPrim : JsPrim → Option Int
  | .num i => some i
  | .str s => jsParseInt s

/-- Model of `parseInt(available, 10) || 0` from the merge step of
`handleInventoryUpdate` (inventory.jsx line 340). -/
def availCoerce (v : JsPrim) : Int :=
  match jsParseIntPrim v with
  | none => 0
  | some q => jsOrZeroInt q

/-- One location record of the stored snapshot, as written by both sync
paths: `{id, name, available, updatedAt}`. `id : Option Int` because
`parseInt` of a malformed gid segment yields `NaN`, modelled as `none`. -/
structure LocationRecord where
  id : Option Int
  name : String
  available : Int
  updatedAt : Nat
deriving DecidableEq

/-- The snapshot object `{ locations: [...] }` serialized into the
`custom.locations` metafield. -/
structure SnapshotData where
  locations : List LocationRecord
deriving DecidableEq

/-- Outcome of reading the stored metafield value and of `JSON.parse` on it:
`absent` models a missing metafield or a null value, `emptyStr` models the
empty (falsy) string, `malformed` models a non-empty string on which
`JSON.parse` throws, `valid d` models a non-empty string parsing to `d`. -/
inductive StoredValue where
  | absent
  | emptyStr
  | malformed
  | valid (d : SnapshotData)
deriving DecidableEq

/-- One `edges[i].node` of the inventory-levels GraphQL response:
`quantities(names:["available"])` as a list of quantities, plus the
location's gid and name. -/
structure InvLevel where
  quantities : List Int
  locationGid : String
  locationName : String
deriving DecidableEq

/-- The webhook notification payload `{inventory_item_id, location_id, available}`. -/
structure Payload where
  inventory_item_id : Int
  location_id : Int
  available : JsPrim
deriving DecidableEq

/-- Environment of one `handleInventoryUpdate` call: the responses the
handler would receive from its collaborators. `variantExists` is whether the
variant query resolves a variant; `stored` is the variant's metafield value;
`fetchErrors` is whether the inventory-levels response carries an `errors`
field; `fetchedLevels` are its edges; `locName` is the location-name lookup
result (`none` when not found); `writeErrors` is whether the metafieldsSet
response carries an `errors` field; `now` is the current time. -/
structure WebhookEnv where
  variantExists : Bool
  stored : StoredValue
  fetchErrors : Bool
  fetchedLevels : List InvLevel
  locName : Option String
  writeErrors : Bool
  now : Nat
deriving DecidableEq

/-- Model of `!variant.metafield || !variant.metafield.value`
(inventory.jsx line 238). -/
def storedEmpty : StoredValue → Bool
  | .absent => true
  | .emptyStr => true
  | _ => false

/-- Model of the ternary at inventory.jsx line 305:
`variant.metafield?.value ? JSON.parse(variant.metafield.value) : {locations: []}`,
paired with the `allLocations` variable which stays `[]` on this branch.
`JSON.parse` throwing on a malformed value is the `.error` case. -/
def parseStored : StoredValue → Except String (SnapshotData × List LocationRecord)
  | .valid d => .ok (d, [])
  | .malformed => .error "SyntaxError: Unexpected token in JSON at position 0"
  | .absent => .ok (⟨[]⟩, [])
  | .emptyStr => .ok (⟨[]⟩, [])

/-- Model of the map callback at inventory.jsx lines 286-298: reading
`edge.node.quantities[0].quantity` throws on an empty quantities list
(`quantities[0]` is `undefined`); otherwise a location record is built from
the gid's numeric tail, the location name and `quantity || 0`. -/
def mkBootstrapRecord (now : Nat) (lvl : InvLevel) : Except String LocationRecord :=
  match lvl.quantities with
  | [] => .error "TypeError: Cannot read properties of undefined (reading quantity)"
  | q :: _ =>
    .ok { id := gidNumericId lvl.locationGid
          name := lvl.locationName
          available := jsOrZeroInt q
          updatedAt := now }

/-- Model of `edges.map(...)` with a callback that can throw: the map
short-circuits at the first thrown error, as a JS exception would. -/
def mapRecords (now : Nat) : List InvLevel → Except String (List LocationRecord)
  | [] => .ok []
  | lvl :: rest =>
    match mkBootstrapRecord now lvl with
    | .error e => .error e
    | .ok r =>
      match mapRecords now rest with
      | .error e => .error e
      | .ok rs => .ok (r :: rs)

/-- Model of the metafield-empty bootstrap branch, inventory.jsx lines
244-302. The two `console.log` statements at lines 275-276 read
`edges[0].node` and `edges[1].node` unconditionally, so with fewer than two
edges they throw before anything else; then the `errors` field check runs;
then the edges are mapped to location records. -/
def bootstrapLocations (env : WebhookEnv) : Except String (List LocationRecord) :=
  if env.fetchedLevels.length < 2 then
    .error "TypeError: Cannot read properties of undefined (reading node)"
  else if env.fetchErrors then
    .error "Failed to fetch inventory levels."
  else
    mapRecords env.now env.fetchedLevels

/-- Fallback location name, inventory.jsx line 339. -/
def fallbackName (location_id : Int) : String :=
  "Location " ++ toString location_id

/-- Model of `location?.name || fallback`: an absent location or an empty
(falsy) name falls back to the synthesized placeholder. -/
def resolvedName (locName : Option String) (location_id : Int) : String :=
  match locName with
  | some s => if s = "" then fallbackName location_id else s
  | none => fallbackName location_id

/-- The `updatedLocation` object of inventory.jsx lines 337-342. -/
def updatedLocationRecord (env : WebhookEnv) (p : Payload) : LocationRecord :=
  { id := some p.location_id
    name := resolvedName env.locName p.location_id
    available := availCoerce p.available
    updatedAt := env.now }

/-- The single-location merge, inventory.jsx lines 333-348: find the first
record whose `id === location_id`, replace it in place if found, else push
the updated record. `List.findIdx` returns the length when no record
matches, mirroring the `index >= 0` test on the JS `-1` convention. -/
def mergeStep (env : WebhookEnv) (p : Payload) (locs : List LocationRecord) : List LocationRecord :=
  let index := locs.findIdx fun loc => jsEqId loc.id (some p.location_id)
  let upd := updatedLocationRecord env p
  if index < locs.length then locs.set index upd else locs ++ [upd]

/-- Model of `handleInventoryUpdate` (inventory.jsx lines 201-396).  Returns
the snapshot value written by the final metafieldsSet call, or the message of
the JS exception that escapes the handler.  Note the merge step is guarded by
`!metafieldsEmpty || allLocations.length === 0` (line 308), and the final
write throws when the response carries an `errors` field (line 384). -/
def handleInventoryUpdate (env : WebhookEnv) (p : Payload) : Except String SnapshotData :=
  if !env.variantExists then Except.error "Variant not found"
  else
    let metafieldsEmpty := storedEmpty env.stored
    match (if metafieldsEmpty then
             Except.map (fun ls => (SnapshotData.mk ls, ls)) (bootstrapLocations env)
           else parseStored env.stored) with
    | Except.error e => Except.error e
    | Except.ok (currentData, allLocations) =>
      let merged :=
        if !metafieldsEmpty || allLocations.length == 0 then
          SnapshotData.mk (mergeStep env p currentData.locations)
        else currentData
      if env.writeErrors then Except.error "Failed to update metafield"
      else Except.ok merged

/-- State of the `parallelLimit` helper (app._index.jsx lines 52-63) at one
instant of the cooperative schedule: `nextIdx` is the shared counter `i`,
`running` lists the indices currently awaited by a worker (in admission
order), `results` is the shared results array (`none` marks a slot not yet
assigned). -/
structure LimState (a : Type) where
  nextIdx : Nat
  running : List Nat
  results : List (Option a)
deriving DecidableEq

/-- Initial state of `parallelLimit`: `Promise.all` spawns
`min(limit, tasks.length)` workers, each of which synchronously claims the
next index before suspending on its task. -/
def limInit (a : Type) (n k : Nat) : LimState a :=
  { nextIdx := min k n
    running := List.range (min k n)
    results := List.replicate n none }

/-- Admission of the next pending index by a worker whose task just
completed (the recursive `next()` call): claim `i++` while `i < tasks.length`. -/
def limAdmit (n : Nat) (s : LimState a) : LimState a :=
  if s.nextIdx < n then
    { nextIdx := s.nextIdx + 1
      running := s.running ++ [s.nextIdx]
      results := s.results }
  else s

/-- One completion event of the cooperative scheduler: the environment (the
event loop) picks which in-flight task settles next — choice `c` selects it —
its result is stored at its original index, and the finishing worker admits
the next pending index.  With no task in flight nothing happens. -/
def limStep (task : Nat → a) (n : Nat) (s : LimState a) (c : Nat) : LimState a :=
  if s.running.isEmpty then s
  else
    let j := s.running.getD (c % s.running.length) 0
    limAdmit n
      { nextIdx := s.nextIdx
        running := s.running.erase j
        results := s.results.set j (some (task j)) }

/-- Full run of `parallelLimit` over `n` pure tasks with limit `k` under a
completion schedule `sched` (one entry per completion event). -/
def parallelLimitRun (task : Nat → a) (n k : Nat) (sched : List Nat) : LimState a :=
  sched.foldl (limStep task n) (limInit a n k)

/-- Number of settled slots of a results array. -/
def countSome (l : List (Option a)) : Nat :=
  l.countP Option.isSome

/-- Outcome of one per-variant task of the bulk sync (app._index.jsx lines
168-276): success carrying the snapshot written to the metafield, a
`userError` result (validation errors from metafieldsSet), or an `apiError`
result (any exception caught by the task's try/catch). -/
inductive TaskOutcome where
  | success (variantId : String) (written : SnapshotData)
  | userError (variantId : String) (errs : List String)
  | apiError (variantId : String) (msg : String)
deriving DecidableEq

/-- Environment of one per-variant task: the variant's id, its
`inventoryItem` reference (`none` models a null inventoryItem, whose `.id`
access throws), the inventory-levels fetch result (`.error` models a thrown
or errored GraphQL response) and the metafieldsSet result (`.error` models a
response with an `errors` field, `.ok errs` carries its userErrors). -/
structure VariantEnv where
  variantId : String
  inventoryItem : Option String
  invFetch : Except String (List InvLevel)
  writeRes : Except String (List String)
deriving DecidableEq

/-- Model of the per-variant task body (app._index.jsx lines 168-276): fetch
the variant's inventory levels, format them — numeric id from the gid tail,
location name, `quantities[0]?.quantity || 0`, current time — write the
snapshot, and map every caught exception to an `apiError` outcome. -/
def runVariantTask (now : Nat) (v : VariantEnv) : TaskOutcome :=
  match v.inventoryItem with
  | none => .apiError v.variantId "TypeError: Cannot read properties of null (reading id)"
  | some _ =>
    match v.invFetch with
    | .error e => .apiError v.variantId e
    | .ok levels =>
      let recs := levels.map fun lvl =>
        { id := gidNumericId lvl.locationGid
          name := lvl.locationName
          available := jsOrIntZero lvl.quantities.head?
          updatedAt := now : LocationRecord }
      match v.writeRes with
      | .error e => .apiError v.variantId e
      | .ok userErrs =>
        if userErrs.length > 0 then .userError v.variantId userErrs
        else .success v.variantId ⟨recs⟩

/-- One entry of `variantUpdateProgress.errors`, tagged by kind as in the
source: `userError`, `apiError` or `batchError`. -/
inductive ErrorRecord where
  | userError (variantId : String) (errs : List String)
  | apiError (variantId : String) (msg : String)
  | batchError (batch : Nat) (msg : String)
deriving DecidableEq

/-- Whether an error record is a batch-level error. -/
def isBatchErrorRec : ErrorRecord → Bool
  | .batchError _ _ => true
  | _ => false

/-- Error record appended for a task outcome, if any (app._index.jsx lines
288-309). -/
def outcomeError : TaskOutcome → Option ErrorRecord
  | .success _ _ => none
  | .userError v e => some (.userError v e)
  | .apiError v m => some (.apiError v m)

/-- The final summary object: the normal-completion shape built at
app._index.jsx lines 339-345 (`success: true`) or the shape built by the
outer catch at lines 356-360 (`success: false`). -/
inductive Summary where
  | ok (processedVariants totalVariants batchCount : Nat) (message : String)
  | failed (error : String) (message : String)
deriving DecidableEq

/-- The `success` field of a summary. -/
def Summary.success : Summary → Bool
  | .ok _ _ _ _ => true
  | .failed _ _ => false

/-- The `message` field of a summary. -/
def Summary.message : Summary → String
  | .ok _ _ _ m => m
  | .failed _ m => m

/-- The `variantUpdateProgress` shared state object. -/
structure ProgState where
  processedVariants : Nat
  totalVariants : Nat
  isProcessing : Bool
  currentBatch : Nat
  errors : List ErrorRecord
  startedAt : Option Nat
  completedAt : Option Nat
  summary : Option Summary
  summaryReturned : Bool
deriving DecidableEq

/-- Folding one task result into the progress state (app._index.jsx lines
283-311): increment `processedVariants` unconditionally (every admitted task
returns a truthy result object), then append an error record for a failed
outcome. -/
def foldOutcome (st : ProgState) (o : TaskOutcome) : ProgState :=
  let st := { st with processedVariants := st.processedVariants + 1 }
  match outcomeError o with
  | some e => { st with errors := st.errors ++ [e] }
  | none => st

/-- One fetched page of variants: the batch's per-variant environments and
the `pageInfo.hasNextPage` flag. -/
structure BatchFetch where
  variants : List VariantEnv
  hasNext : Bool
deriving DecidableEq

/-- Environment of one full background run: the total-count estimate
(`none` models a failed or missing estimate), the successive batch fetch
results as the loop would encounter them (`.error` models an exception
thrown while processing that batch), and the current time. -/
structure RunEnv where
  countEstimate : Option Nat
  batches : List (Except String BatchFetch)
  now : Nat
deriving DecidableEq

/-- The while-loop of `processVariantsInBackground` (app._index.jsx lines
130-334): advance `currentBatch`, then either record a single `batchError`
and stop (the catch at lines 323-333 sets `hasNextPage = false`), or fold
the batch's task results and continue while `hasNextPage`. -/
def runBatches (now : Nat) : List (Except String BatchFetch) → ProgState → ProgState
  | [], st => st
  | b :: rest, st =>
    let st := { st with currentBatch := st.currentBatch + 1 }
    match b with
    | .error msg =>
      { st with errors := st.errors ++ [.batchError st.currentBatch msg] }
    | .ok bf =>
      let st := (bf.variants.map (runVariantTask now)).foldl foldOutcome st
      if bf.hasNext then runBatches now rest st else st

/-- Number of tasks admitted by the limiter over a whole run: every variant
of every batch reached before the loop stops. -/
def admittedCount : List (Except String BatchFetch) → Nat
  | [] => 0
  | .error _ :: _ => 0
  | .ok bf :: rest =>
    bf.variants.length + (if bf.hasNext then admittedCount rest else 0)

/-- The progress tracker as reset at the start of a run (app._index.jsx
lines 83-92). -/
def initialProgress (now : Nat) : ProgState :=
  { processedVariants := 0
    totalVariants := 0
    isProcessing := true
    currentBatch := 0
    errors := []
    startedAt := some now
    completedAt := none
    summary := none
    summaryReturned := false }

/-- Model of `processVariantsInBackground` (app._index.jsx lines 66-367):
reset the tracker, apply the best-effort total estimate, run the batch loop,
then finalize with `isProcessing = false`, `completedAt` and the
`success: true` summary of lines 339-345.  The `success: false` summary of
the outer catch (lines 349-363) is built only for an exception escaping the
whole try block; the batch loop's own catch absorbs batch failures, so a
batch-level error still reaches the normal finalization.
`startProgress` is the tracker after the reset and the best-effort
total-count estimate of lines 100-128. -/
def startProgress (now : Nat) (est : Option Nat) : ProgState :=
  match est with
  | some t => { initialProgress now with totalVariants := t }
  | none => initialProgress now

def processVariantsInBackground (env : RunEnv) : ProgState :=
  let st := startProgress env.now env.countEstimate
  let st := runBatches env.now env.batches st
  { st with
    isProcessing := false
    completedAt := some env.now
    summary := some (.ok st.processedVariants st.totalVariants st.currentBatch
      ("Processed " ++ toString st.processedVariants ++ " variants across "
        ++ toString st.currentBatch ++ " batches")) }

/-- The server-side module state: `variantUpdateProgress` plus the
`backgroundProcessing.isRunning` guard flag. -/
structure ServerState where
  progress : ProgState
  isRunning : Bool
deriving DecidableEq

/-- The form intent of an action request: a progress poll or a start
request (any other intent value). -/
inductive Intent where
  | getProgress
  | start
deriving DecidableEq

/-- Response of the action handler: a plain progress payload, a progress
payload with `actionCompleted: true` and the summary fields spread in, the
"already running" rejection, or the start acknowledgement. -/
inductive ActionResp where
  | progressPlain (p : ProgState)
  | progressWithSummary (p : ProgState) (s : Option Summary)
  | alreadyRunning (message : String)
  | started (message : String)
deriving DecidableEq

/-- Model of the Remix `action` (app._index.jsx lines 370-440).  For
`getProgress`: when processing is done, `completedAt` is set and the one-shot
`summaryReturned` flag is still unset, mark the flag on the shared object and
answer with the summary fields spread in; otherwise answer the plain state.
For a start request: reject without any state change while
`backgroundProcessing.isRunning`, else reset the tracker and acknowledge
(the launched background run itself is modelled by
`processVariantsInBackground`). -/
def actionModel (intent : Intent) (st : ServerState) (now : Nat) : ActionResp × ServerState :=
  match intent with
  | .getProgress =>
    let p := st.progress
    if !p.isProcessing && p.completedAt.isSome && !p.summaryReturned then
      let pr := { p with summaryReturned := true }
      (.progressWithSummary pr p.summary, { st with progress := pr })
    else
      (.progressPlain p, st)
  | .start =>
    if st.isRunning then
      (.alreadyRunning "Process already running. Please wait for it to complete.", st)
    else
      (.started "Processing started. You can track progress on this page.",
       { st with progress :=
          { processedVariants := 0
            totalVariants := 0
            isProcessing := true
            currentBatch := 0
            errors := []
            startedAt := some now
            completedAt := none
            summary := none
            summaryReturned := false } })

/-- Responses of `n` consecutive getProgress polls against the shared state. -/
def pollResponses : Nat → ServerState → List ActionResp
  | 0, _ => []
  | n + 1, st =>
    let r := actionModel .getProgress st 0
    r.1 :: pollResponses n r.2

/-- Whether a response has the summary fields spread in. -/
def isSummaryResp : ActionResp → Bool
  | .progressWithSummary _ _ => true
  | _ => false

/-- How many of `n` consecutive polls observe the summary fields. -/
def summarySpreadCount (n : Nat) (st : ServerState) : Nat :=
  (pollResponses n st).countP isSummaryResp

/-- The slot of a results array at an index (`none` when out of range or not
yet assigned). -/
def slotAt (l : List (Option a)) (i : Nat) : Option a :=
  (l[i]?).getD none

/-- Invariant of the `parallelLimit` scheduler state: the results array keeps
its length, indices are claimed in order without gaps or duplicates, at most
`min k n` tasks are in flight (exactly that many while indices remain), and a
slot is settled exactly when its index was claimed and is no longer in
flight, in which case it holds that task's result. -/
structure LimInv (task : Nat → a) (n k : Nat) (s : LimState a) : Prop where
  res_len : s.results.length = n
  next_le : s.nextIdx ≤ n
  nodup : s.running.Nodup
  run_lt : ∀ j ∈ s.running, j < s.nextIdx
  run_le : s.running.length ≤ min k n
  run_full : s.nextIdx < n → s.running.length = min k n
  count_eq : s.nextIdx = countSome s.results + s.running.length
  res_char : ∀ i, i < n →
    ((slotAt s.results i).isSome = true ↔ (i < s.nextIdx ∧ i ∉ s.running))
  res_val : ∀ i b, slotAt s.results i = some b → b = task i

/-- State of the batch loop after processing a sequence of successful
batch fetches (the loop body without the error branch), used to describe
the run up to a failing batch. -/
def runOkSeq (now : Nat) : List BatchFetch → ProgState → ProgState
  | [], st => st
  | bf :: pre, st =>
    runOkSeq now pre
      ((bf.variants.map (runVariantTask now)).foldl foldOutcome
        { st with currentBatch := st.currentBatch + 1 })

/-- Concrete webhook payload used in witnesses and counterexamples:
`{inventory_item_id: 111, location_id: 7, available: "12"}`. -/
def pW : Payload :=
  { inventory_item_id := 111, location_id := 7, available := JsPrim.str "12" }

/-- Concrete inventory level at location 11 with available quantity 4. -/
def lvlW1 : InvLevel :=
  { quantities := [4], locationGid := "gid://shopify/Location/11", locationName := "A" }

/-- Concrete inventory level at location 22 with available quantity 9. -/
def lvlW2 : InvLevel :=
  { quantities := [9], locationGid := "gid://shopify/Location/22", locationName := "B" }

/-- Concrete inventory level with an empty quantities list. -/
def lvlW0 : InvLevel :=
  { quantities := [], locationGid := "gid://shopify/Location/44", locationName := "Main" }

/-- Concrete stored snapshot holding one record for location 7. -/
def dW : SnapshotData :=
  ⟨[{ id := some 7, name := "A", available := 3, updatedAt := 0 }]⟩

/-- Concrete webhook environment with a resolvable variant, two fetched
levels and a successful location-name lookup and write. -/
def envW4 : WebhookEnv :=
  { variantExists := true, stored := StoredValue.valid dW, fetchErrors := false,
    fetchedLevels := [lvlW1, lvlW2], locName := some "Main", writeErrors := false, now := 9 }

/-- Concrete webhook environment whose stored metafield value is malformed. -/
def envMalformed : WebhookEnv :=
  { envW4 with stored := StoredValue.malformed }

/-- Concrete webhook environment with no stored snapshot and an empty
fetched inventory-levels list. -/
def envBootEmpty : WebhookEnv :=
  { envW4 with stored := StoredValue.absent, fetchedLevels := [] }

/-- Concrete webhook environment with no stored snapshot and exactly one
fetched inventory level. -/
def envBootOne : WebhookEnv :=
  { envW4 with stored := StoredValue.absent, fetchedLevels := [lvlW1] }

/-- Concrete webhook environment with no stored snapshot and two fetched
inventory levels. -/
def envBoot2 : WebhookEnv :=
  { envW4 with stored := StoredValue.absent }

/-- Concrete variant environment that succeeds with an empty levels list. -/
def vOkA : VariantEnv :=
  { variantId := "gid://shopify/ProductVariant/1",
    inventoryItem := some "gid://shopify/InventoryItem/1",
    invFetch := Except.ok [], writeRes := Except.ok [] }

/-- Concrete variant environment that succeeds with an empty levels list. -/
def vOkB : VariantEnv :=
  { variantId := "gid://shopify/ProductVariant/2",
    inventoryItem := some "gid://shopify/InventoryItem/2",
    invFetch := Except.ok [], writeRes := Except.ok [] }

/-- Concrete variant environment whose `inventoryItem` is null. -/
def vNoUnit : VariantEnv :=
  { variantId := "gid://shopify/ProductVariant/9", inventoryItem := none,
    invFetch := Except.ok [], writeRes := Except.ok [] }

/-- Concrete variant environment with a tracking unit and one fetched level
whose quantities list is empty (exercising the default to 0). -/
def vWithUnit : VariantEnv :=
  { variantId := "gid://shopify/ProductVariant/3",
    inventoryItem := some "gid://shopify/InventoryItem/3",
    invFetch := Except.ok [lvlW0], writeRes := Except.ok [] }

/-- Concrete successful batch with one variant and a next page. -/
def bfW : BatchFetch := { variants := [vOkA], hasNext := true }

/-- Concrete run environment base for the batch-error witness (its batches
field is overridden in the statements). -/
def envRW : RunEnv := { countEstimate := none, batches := [], now := 3 }

/-- Concrete run environment whose second batch fetch throws. -/
def envC1x : RunEnv :=
  { countEstimate := none,
    batches := [Except.ok { variants := [vOkA], hasNext := true },
                Except.error "network timeout"],
    now := 3 }

/-- Concrete run environment whose total-count estimate (1) is smaller than
the number of variants the pagination actually yields (2). -/
def envC7x : RunEnv :=
  { countEstimate := some 1,
    batches := [Except.ok { variants := [vOkA, vOkB], hasNext := false }],
    now := 5 }

/-- Concrete run environment with a consistent total-count estimate. -/
def envC7w : RunEnv :=
  { countEstimate := some 5,
    batches := [Except.ok { variants := [vOkA], hasNext := false }],
    now := 0 }

/-- Concrete run environment whose only batch holds a variant without a
tracking unit. -/
def envC9 : RunEnv :=
  { countEstimate := none,
    batches := [Except.ok { variants := [vNoUnit], hasNext := false }],
    now := 0 }

/-- Concrete server state of a freshly completed run whose summary has not
yet been consumed. -/
def stDone : ServerState :=
  { progress :=
      { processedVariants := 2, totalVariants := 2, isProcessing := false, currentBatch := 1,
        errors := [], startedAt := some 1, completedAt := some 2,
        summary := some (Summary.ok 2 2 1 "m"), summaryReturned := false },
    isRunning := false }

/-- Concrete server state with a run in progress. -/
def stRun : ServerState := { progress := initialProgress 1, isRunning := true }

/-- Concrete task list used to witness the limiter theorem. -/
def taskW : Nat → Nat := fun i => i * 10

/-- Concrete completion schedule used to witness the limiter theorem. -/
def schedW : List Nat := [1, 0, 0]

/-! Theorems. -/

/-- Slot lookup in a replicate-none array yields none. -/
theorem slotAt_replicate (n i : Nat) :
    slotAt (List.replicate n (none : Option a)) i = none := by
  rw [slotAt, List.getElem?_replicate]
  split <;> rfl

/-- Slot lookup at the just-set index. -/
theorem slotAt_set_self (l : List (Option a)) (j : Nat) (x : Option a)
    (hj : j < l.length) : slotAt (l.set j x) j = x := by
  rw [slotAt, List.getElem?_set]
  simp [hj]

/-- Slot lookup away from the set index is unchanged. -/
theorem slotAt_set_ne (l : List (Option a)) (i j : Nat) (x : Option a)
    (h : i ≠ j) : slotAt (l.set i x) j = slotAt l j := by
  rw [slotAt, List.getElem?_set_ne h, slotAt]

/-- Slot zero of a cons cell. -/
theorem slotAt_cons_zero (x : Option a) (l : List (Option a)) :
    slotAt (x :: l) 0 = x := by
  simp [slotAt]

/-- Successor slot of a cons cell. -/
theorem slotAt_cons_succ (x : Option a) (l : List (Option a)) (j : Nat) :
    slotAt (x :: l) (j + 1) = slotAt l j := by
  simp [slotAt]

/-- Setting a still-empty slot to a value raises the settled count by one. -/
theorem countSome_set_of_none (l : List (Option a)) (j : Nat) (x : a)
    (hj : j < l.length) (h : slotAt l j = none) :
    countSome (l.set j (some x)) = countSome l + 1 := by
  induction l generalizing j with
  | nil => simp at hj
  | cons hd tl ih =>
    cases j with
    | zero =>
      rw [slotAt_cons_zero] at h
      subst h
      simp [countSome, List.countP_cons]
    | succ j =>
      rw [slotAt_cons_succ] at h
      have hj' : j < tl.length := by simpa using hj
      have hih := ih j hj' h
      simp only [List.set_cons_succ, countSome, List.countP_cons] at hih ⊢
      omega

/-- `limAdmit` never touches the results array. -/
theorem results_limAdmit (n : Nat) (s : LimState a) :
    (limAdmit n s).results = s.results := by
  rw [limAdmit]
  split <;> rfl

/-- The initial `parallelLimit` state satisfies the scheduler invariant. -/
theorem limInv_init (task : Nat → a) (n k : Nat) : LimInv task n k (limInit a n k) := by
  refine ⟨?_, ?_, ?_, ?_, ?_, ?_, ?_, ?_, ?_⟩
  · simp [limInit]
  · simp [limInit]
  · simp [limInit, List.nodup_range]
  · intro j hj
    simpa [limInit, List.mem_range] using hj
  · simp [limInit]
  · intro _
    simp [limInit]
  · simp [limInit, countSome, List.countP_replicate]
  · intro i hi
    rw [limInit]
    simp only [slotAt_replicate, Option.isSome_none, List.mem_range]
    constructor
    · intro h
      simp at h
    · intro h
      omega
  · intro i b hb
    rw [limInit] at hb
    rw [slotAt_replicate] at hb
    simp at hb

/-- Completing the in-flight task `j` and then admitting the next pending
index preserves the scheduler invariant. -/
theorem limInv_complete_admit (task : Nat → a) (n k : Nat) (s : LimState a)
    (hI : LimInv task n k s) (j : Nat) (hj_mem : j ∈ s.running) :
    LimInv task n k
      (limAdmit n ⟨s.nextIdx, s.running.erase j, s.results.set j (some (task j))⟩) := by
  have hj_lt : j < s.nextIdx := hI.run_lt j hj_mem
  have hj_ltn : j < n := Nat.lt_of_lt_of_le hj_lt hI.next_le
  have hj_len : j < s.results.length := by
    rw [hI.res_len]
    exact hj_ltn
  have hj_res : slotAt s.results j = none := by
    rcases h : slotAt s.results j with _ | b
    · rfl
    · exfalso
      have h2 : (slotAt s.results j).isSome = true := by rw [h]; rfl
      exact ((hI.res_char j hj_ltn).mp h2).2 hj_mem
  have hcount : countSome (s.results.set j (some (task j))) = countSome s.results + 1 :=
    countSome_set_of_none s.results j (task j) hj_len hj_res
  have herase_len : (s.running.erase j).length = s.running.length - 1 :=
    List.length_erase_of_mem hj_mem
  have hrunpos : 0 < s.running.length := by
    apply List.length_pos.mpr
    intro h0
    rw [h0] at hj_mem
    simp at hj_mem
  have herase_nodup : (s.running.erase j).Nodup := hI.nodup.erase j
  have herase_mem : ∀ i, (i ∈ s.running.erase j ↔ i ≠ j ∧ i ∈ s.running) :=
    fun i => hI.nodup.mem_erase_iff
  rw [limAdmit]
  dsimp only
  by_cases hnext : s.nextIdx < n
  · rw [if_pos hnext]
    refine ⟨?_, ?_, ?_, ?_, ?_, ?_, ?_, ?_, ?_⟩ <;> dsimp only
    · simp [hI.res_len]
    · omega
    · rw [List.nodup_append]
      refine ⟨herase_nodup, List.nodup_singleton _, ?_⟩
      intro x hx hx2
      have h1 := hI.run_lt x ((herase_mem x).mp hx).2
      simp at hx2
      omega
    · intro i hi
      rcases List.mem_append.mp hi with h1 | h1
      · have := hI.run_lt i ((herase_mem i).mp h1).2
        omega
      · simp at h1
        omega
    · have h1 := hI.run_le
      simp only [List.length_append, List.length_cons, List.length_nil, herase_len]
      omega
    · intro h2
      have h3 := hI.run_full hnext
      simp only [List.length_append, List.length_cons, List.length_nil, herase_len]
      omega
    · have h1 := hI.count_eq
      simp only [List.length_append, List.length_cons, List.length_nil, herase_len, hcount]
      omega
    · intro i hi
      rcases eq_or_ne i j with hij | hij
      · subst hij
        rw [slotAt_set_self _ _ _ hj_len]
        refine ⟨fun _ => ⟨by omega, ?_⟩, fun _ => rfl⟩
        intro hmem
        rcases List.mem_append.mp hmem with h1 | h1
        · exact ((herase_mem i).mp h1).1 rfl
        · simp at h1
          omega
      · rw [slotAt_set_ne _ _ _ _ (Ne.symm hij), hI.res_char i hi]
        constructor
        · rintro ⟨h1, h2⟩
          refine ⟨by omega, ?_⟩
          intro hmem
          rcases List.mem_append.mp hmem with h3 | h3
          · exact h2 ((herase_mem i).mp h3).2
          · simp at h3
            omega
        · rintro ⟨h1, h2⟩
          have h3 : i ∉ s.running.erase j := fun hx => h2 (List.mem_append.mpr (Or.inl hx))
          have h4 : i ≠ s.nextIdx := by
            intro hx
            exact h2 (List.mem_append.mpr (Or.inr (by simp [hx])))
          exact ⟨by omega, fun h5 => h3 ((herase_mem i).mpr ⟨hij, h5⟩)⟩
    · intro i b hb
      rcases eq_or_ne i j with hij | hij
      · subst hij
        rw [slotAt_set_self _ _ _ hj_len] at hb
        exact (Option.some_inj.mp hb).symm
      · rw [slotAt_set_ne _ _ _ _ (Ne.symm hij)] at hb
        exact hI.res_val i b hb
  · rw [if_neg hnext]
    refine ⟨?_, ?_, ?_, ?_, ?_, ?_, ?_, ?_, ?_⟩ <;> dsimp only
    · simp [hI.res_len]
    · exact hI.next_le
    · exact herase_nodup
    · intro i hi
      exact hI.run_lt i ((herase_mem i).mp hi).2
    · have h1 := hI.run_le
      omega
    · intro h2
      exact absurd h2 hnext
    · have h1 := hI.count_eq
      rw [hcount]
      omega
    · intro i hi
      rcases eq_or_ne i j with hij | hij
      · subst hij
        rw [slotAt_set_self _ _ _ hj_len]
        refine ⟨fun _ => ⟨hj_lt, ?_⟩, fun _ => rfl⟩
        intro hmem
        exact ((herase_mem i).mp hmem).1 rfl
      · rw [slotAt_set_ne _ _ _ _ (Ne.symm hij), hI.res_char i hi]
        constructor
        · rintro ⟨h1, h2⟩
          exact ⟨h1, fun hx => h2 ((herase_mem i).mp hx).2⟩
        · rintro ⟨h1, h2⟩
          exact ⟨h1, fun h5 => h2 ((herase_mem i).mpr ⟨hij, h5⟩)⟩
    · intro i b hb
      rcases eq_or_ne i j with hij | hij
      · subst hij
        rw [slotAt_set_self _ _ _ hj_len] at hb
        exact (Option.some_inj.mp hb).symm
      · rw [slotAt_set_ne _ _ _ _ (Ne.symm hij)] at hb
        exact hI.res_val i b hb

/-- A slot whose index is still in flight is not yet settled. -/
theorem slot_none_of_running (task : Nat → a) (n k : Nat) (s : LimState a)
    (hI : LimInv task n k s) (j : Nat) (hj_mem : j ∈ s.running) :
    slotAt s.results j = none := by
  have hj_ltn : j < n := Nat.lt_of_lt_of_le (hI.run_lt j hj_mem) hI.next_le
  rcases h : slotAt s.results j with _ | b
  · rfl
  · exfalso
    have h2 : (slotAt s.results j).isSome = true := by rw [h]; rfl
    exact ((hI.res_char j hj_ltn).mp h2).2 hj_mem

/-- One completion step preserves the scheduler invariant. -/
theorem limInv_step (task : Nat → a) (n k : Nat) (s : LimState a)
    (hI : LimInv task n k s) (c : Nat) : LimInv task n k (limStep task n s c) := by
  by_cases hre : s.running.isEmpty
  · simpa [limStep, hre] using hI
  · have hne' : s.running ≠ [] := by
      intro h0
      simp [h0] at hre
    have hlenpos : 0 < s.running.length := List.length_pos.mpr hne'
    have hidx : c % s.running.length < s.running.length := Nat.mod_lt _ hlenpos
    have hj_mem : s.running.getD (c % s.running.length) 0 ∈ s.running := by
      rw [List.getD_eq_getElem?_getD, List.getElem?_eq_getElem hidx]
      exact List.getElem_mem hidx
    have h := limInv_complete_admit task n k s hI _ hj_mem
    simpa [limStep, hre] using h

/-- One completion step on a state with work in flight settles exactly one
more slot. -/
theorem countSome_limStep (task : Nat → a) (n k : Nat) (s : LimState a)
    (hI : LimInv task n k s) (c : Nat) (hne : ¬s.running.isEmpty = true) :
    countSome (limStep task n s c).results = countSome s.results + 1 := by
  have hne' : s.running ≠ [] := by
    intro h0
    simp [h0] at hne
  have hlenpos : 0 < s.running.length := List.length_pos.mpr hne'
  have hidx : c % s.running.length < s.running.length := Nat.mod_lt _ hlenpos
  have hj_mem : s.running.getD (c % s.running.length) 0 ∈ s.running := by
    rw [List.getD_eq_getElem?_getD, List.getElem?_eq_getElem hidx]
    exact List.getElem_mem hidx
  have hj_ltn : s.running.getD (c % s.running.length) 0 < n :=
    Nat.lt_of_lt_of_le (hI.run_lt _ hj_mem) hI.next_le
  have hj_len : s.running.getD (c % s.running.length) 0 < s.results.length := by
    rw [hI.res_len]
    exact hj_ltn
  have hj_res := slot_none_of_running task n k s hI _ hj_mem
  have hstep : (limStep task n s c).results
      = s.results.set (s.running.getD (c % s.running.length) 0)
          (some (task (s.running.getD (c % s.running.length) 0))) := by
    simp [limStep, hne, results_limAdmit]
  rw [hstep]
  exact countSome_set_of_none _ _ _ hj_len hj_res

/-- The scheduler invariant holds after any fold of completion steps. -/
theorem limInv_fold (task : Nat → a) (n k : Nat) :
    ∀ (sched : List Nat) (s : LimState a), LimInv task n k s →
      LimInv task n k (sched.foldl (limStep task n) s) := by
  intro sched
  induction sched with
  | nil => intro s hI; exact hI
  | cons c sched ih =>
    intro s hI
    rw [List.foldl_cons]
    exact ih _ (limInv_step task n k s hI c)

/-- After a fold of completion events the settled count is the initial count
plus one per event, saturating at `n`: progress is one task per event until
all are done. -/
theorem countSome_limFold (task : Nat → a) (n k : Nat) (hk : 1 ≤ k) :
    ∀ (sched : List Nat) (s : LimState a), LimInv task n k s →
      countSome ((sched.foldl (limStep task n) s).results)
        = min (countSome s.results + sched.length) n := by
  intro sched
  induction sched with
  | nil =>
    intro s hI
    have h2 := hI.count_eq
    have h3 := hI.next_le
    have h1 : countSome s.results ≤ n := by omega
    simpa using (Nat.min_eq_left h1).symm
  | cons c sched ih =>
    intro s hI
    rw [List.foldl_cons]
    by_cases hre : s.running.isEmpty
    · have hrun0 : s.running = [] := by simpa [List.isEmpty_iff] using hre
      have hnn : s.nextIdx = n := by
        by_contra hx
        have h1 : s.nextIdx < n := Nat.lt_of_le_of_ne hI.next_le hx
        have h2 := hI.run_full h1
        rw [hrun0] at h2
        simp at h2
        omega
      have hcnt : countSome s.results = n := by
        have h2 := hI.count_eq
        rw [hrun0] at h2
        simp at h2
        omega
      have hstep : limStep task n s c = s := by
        rw [limStep, if_pos hre]
      rw [hstep, ih s hI, hcnt]
      omega
    · have hstep := countSome_limStep task n k s hI c hre
      have hI2 := limInv_step task n k s hI c
      rw [ih _ hI2, hstep]
      have h4 : countSome s.results + 1 + sched.length
          = countSome s.results + (sched.length + 1) := by omega
      rw [h4, List.length_cons]

/-- The settled count of the freshly initialized results array is zero. -/
theorem countSome_limInit (a : Type) (n k : Nat) :
    countSome (limInit a n k).results = 0 := by
  simp [limInit, countSome, List.countP_replicate]

/-- After exactly `n` completion events every slot holds its own task's
result, whatever the completion order was. -/
theorem limRun_results (task : Nat → a) (n k : Nat) (hk : 1 ≤ k) (sched : List Nat)
    (hlen : sched.length = n) :
    ∀ i, i < n → slotAt (parallelLimitRun task n k sched).results i = some (task i) := by
  intro i hi
  have hI := limInv_fold task n k sched _ (limInv_init task n k)
  have hcnt := countSome_limFold task n k hk sched _ (limInv_init task n k)
  rw [countSome_limInit, hlen] at hcnt
  have hcnt2 : countSome (sched.foldl (limStep task n) (limInit a n k)).results = n := by
    rw [hcnt]
    omega
  have hlenr : (sched.foldl (limStep task n) (limInit a n k)).results.length = n := hI.res_len
  have hall : ∀ x ∈ (sched.foldl (limStep task n) (limInit a n k)).results,
      Option.isSome x = true := by
    apply List.countP_eq_length.mp
    rw [hlenr]
    exact hcnt2
  have hi2 : i < (sched.foldl (limStep task n) (limInit a n k)).results.length := by
    rw [hlenr]
    exact hi
  have hsome := hall _ (List.getElem_mem hi2)
  have hslot : slotAt (sched.foldl (limStep task n) (limInit a n k)).results i
      = (sched.foldl (limStep task n) (limInit a n k)).results[i] := by
    rw [slotAt, List.getElem?_eq_getElem hi2]
    rfl
  rcases hx : (sched.foldl (limStep task n) (limInit a n k)).results[i] with _ | b
  · rw [hx] at hsome
    simp at hsome
  · have hb : slotAt (sched.foldl (limStep task n) (limInit a n k)).results i = some b := by
      rw [hslot, hx]
    have hbv := hI.res_val i b hb
    show slotAt (sched.foldl (limStep task n) (limInit a n k)).results i = some (task i)
    rw [hb, hbv]

/-- Claim C3: for every sequence of `n` tasks and every limit `k ≥ 1`, the
concurrency limiter returns a result sequence of length exactly `n` in which
slot `i` is the result of task `i` regardless of the order in which tasks
complete; at most `min k n` tasks are in flight at any instant; and the
started indices always form the downward-closed prefix below the shared
counter, so the next pending task is admitted in original index order as
completions happen. -/
theorem claim_c3_parallelLimit (task : Nat → a) (n k : Nat) (hk : 1 ≤ k)
    (sched : List Nat) (hlen : sched.length = n) :
    (parallelLimitRun task n k sched).results.length = n
    ∧ (∀ i, i < n → slotAt (parallelLimitRun task n k sched).results i = some (task i))
    ∧ (∀ c, ((sched.take c).foldl (limStep task n) (limInit a n k)).running.length ≤ min k n)
    ∧ (∀ c i, i < n →
        ((i ∈ ((sched.take c).foldl (limStep task n) (limInit a n k)).running
          ∨ (slotAt ((sched.take c).foldl (limStep task n) (limInit a n k)).results i).isSome
              = true)
          ↔ i < ((sched.take c).foldl (limStep task n) (limInit a n k)).nextIdx)) := by
  refine ⟨(limInv_fold task n k sched _ (limInv_init task n k)).res_len,
    limRun_results task n k hk sched hlen, ?_, ?_⟩
  · intro c
    exact (limInv_fold task n k (sched.take c) _ (limInv_init task n k)).run_le
  · intro c i hi
    have hI := limInv_fold task n k (sched.take c) _ (limInv_init task n k)
    constructor
    · rintro (h1 | h1)
      · exact hI.run_lt i h1
      · exact ((hI.res_char i hi).mp h1).1
    · intro h1
      by_cases h2 : i ∈ ((sched.take c).foldl (limStep task n) (limInit a n k)).running
      · exact Or.inl h2
      · exact Or.inr ((hI.res_char i hi).mpr ⟨h1, h2⟩)

/-- Witness for C3: the limiter theorem applied to three concrete tasks with
limit `2` under the concrete out-of-order completion schedule `schedW`. -/
theorem claim_c3_witness :
    (1 ≤ 2 ∧ schedW.length = 3)
    ∧ ((parallelLimitRun taskW 3 2 schedW).results.length = 3
      ∧ (∀ i, i < 3 → slotAt (parallelLimitRun taskW 3 2 schedW).results i = some (taskW i))
      ∧ (∀ c, ((schedW.take c).foldl (limStep taskW 3) (limInit Nat 3 2)).running.length
          ≤ min 2 3)
      ∧ (∀ c i, i < 3 →
          ((i ∈ ((schedW.take c).foldl (limStep taskW 3) (limInit Nat 3 2)).running
            ∨ (slotAt ((schedW.take c).foldl (limStep taskW 3) (limInit Nat 3 2)).results i).isSome
                = true)
            ↔ i < ((schedW.take c).foldl (limStep taskW 3) (limInit Nat 3 2)).nextIdx))) :=
  ⟨⟨by decide, by decide⟩, claim_c3_parallelLimit taskW 3 2 (by decide) schedW (by decide)⟩

/-- Folding one task outcome increments the processed count by exactly one,
whatever the outcome was. -/
theorem foldOutcome_processed (st : ProgState) (o : TaskOutcome) :
    (foldOutcome st o).processedVariants = st.processedVariants + 1 := by
  cases h : outcomeError o <;> simp [foldOutcome, h]

/-- Folding one task outcome leaves the current batch number unchanged. -/
theorem foldOutcome_currentBatch (st : ProgState) (o : TaskOutcome) :
    (foldOutcome st o).currentBatch = st.currentBatch := by
  cases h : outcomeError o <;> simp [foldOutcome, h]

/-- Folding one task outcome leaves the total count unchanged. -/
theorem foldOutcome_totalVariants (st : ProgState) (o : TaskOutcome) :
    (foldOutcome st o).totalVariants = st.totalVariants := by
  cases h : outcomeError o <;> simp [foldOutcome, h]

/-- Folding one task outcome never appends a batch-level error record. -/
theorem foldOutcome_batchErrors (st : ProgState) (o : TaskOutcome) :
    List.countP isBatchErrorRec (foldOutcome st o).errors
      = List.countP isBatchErrorRec st.errors := by
  cases o <;>
    simp [foldOutcome, outcomeError, isBatchErrorRec, List.countP_append, List.countP_cons]

/-- Folding a list of task outcomes adds its length to the processed count. -/
theorem foldOutcomes_processed (outs : List TaskOutcome) :
    ∀ st : ProgState,
      (outs.foldl foldOutcome st).processedVariants = st.processedVariants + outs.length := by
  induction outs with
  | nil => intro st; simp
  | cons o outs ih =>
    intro st
    rw [List.foldl_cons, ih (foldOutcome st o), foldOutcome_processed]
    simp
    omega

/-- Folding a list of task outcomes keeps the current batch number. -/
theorem foldOutcomes_currentBatch (outs : List TaskOutcome) :
    ∀ st : ProgState, (outs.foldl foldOutcome st).currentBatch = st.currentBatch := by
  induction outs with
  | nil => intro st; rfl
  | cons o outs ih =>
    intro st
    rw [List.foldl_cons, ih (foldOutcome st o), foldOutcome_currentBatch]

/-- Folding a list of task outcomes keeps the total count. -/
theorem foldOutcomes_totalVariants (outs : List TaskOutcome) :
    ∀ st : ProgState, (outs.foldl foldOutcome st).totalVariants = st.totalVariants := by
  induction outs with
  | nil => intro st; rfl
  | cons o outs ih =>
    intro st
    rw [List.foldl_cons, ih (foldOutcome st o), foldOutcome_totalVariants]

/-- Folding a list of task outcomes appends no batch-level error record. -/
theorem foldOutcomes_batchErrors (outs : List TaskOutcome) :
    ∀ st : ProgState,
      List.countP isBatchErrorRec (outs.foldl foldOutcome st).errors
        = List.countP isBatchErrorRec st.errors := by
  induction outs with
  | nil => intro st; rfl
  | cons o outs ih =>
    intro st
    rw [List.foldl_cons, ih (foldOutcome st o), foldOutcome_batchErrors]

/-- The batch loop adds exactly the number of admitted tasks to the
processed count. -/
theorem runBatches_processed (now : Nat) :
    ∀ (bs : List (Except String BatchFetch)) (st : ProgState),
      (runBatches now bs st).processedVariants = st.processedVariants + admittedCount bs := by
  intro bs
  induction bs with
  | nil => intro st; simp [runBatches, admittedCount]
  | cons b rest ih =>
    intro st
    cases b with
    | error msg => simp [runBatches, admittedCount]
    | ok bf =>
      rw [runBatches]
      by_cases hn : bf.hasNext
      · rw [if_pos hn, ih, foldOutcomes_processed]
        simp [admittedCount, hn, List.length_map]
        omega
      · rw [if_neg hn, foldOutcomes_processed]
        simp [admittedCount, hn, List.length_map]

/-- The batch loop never decreases the processed count. -/
theorem runBatches_monotone (now : Nat) (bs : List (Except String BatchFetch))
    (st : ProgState) :
    st.processedVariants ≤ (runBatches now bs st).processedVariants := by
  rw [runBatches_processed]
  omega

/-- The batch loop never changes the total count. -/
theorem runBatches_totalVariants (now : Nat) :
    ∀ (bs : List (Except String BatchFetch)) (st : ProgState),
      (runBatches now bs st).totalVariants = st.totalVariants := by
  intro bs
  induction bs with
  | nil => intro st; rfl
  | cons b rest ih =>
    intro st
    cases b with
    | error msg => simp [runBatches]
    | ok bf =>
      rw [runBatches]
      by_cases hn : bf.hasNext
      · rw [if_pos hn, ih, foldOutcomes_totalVariants]
      · rw [if_neg hn, foldOutcomes_totalVariants]

/-- The freshly reset tracker has processed nothing. -/
theorem startProgress_processed (now : Nat) (est : Option Nat) :
    (startProgress now est).processedVariants = 0 := by
  cases est <;> rfl

/-- The freshly reset tracker is at batch zero. -/
theorem startProgress_currentBatch (now : Nat) (est : Option Nat) :
    (startProgress now est).currentBatch = 0 := by
  cases est <;> rfl

/-- The freshly reset tracker has an empty error list. -/
theorem startProgress_errors (now : Nat) (est : Option Nat) :
    (startProgress now est).errors = [] := by
  cases est <;> rfl

/-- A successful estimate becomes the total count of the reset tracker. -/
theorem startProgress_total_some (now t : Nat) :
    (startProgress now (some t)).totalVariants = t := rfl

/-- The successful-batches loop advances the batch counter once per batch. -/
theorem runOkSeq_currentBatch (now : Nat) :
    ∀ (pre : List BatchFetch) (st : ProgState),
      (runOkSeq now pre st).currentBatch = st.currentBatch + pre.length := by
  intro pre
  induction pre with
  | nil => intro st; simp [runOkSeq]
  | cons bf pre ih =>
    intro st
    rw [runOkSeq, ih, foldOutcomes_currentBatch]
    simp
    omega

/-- The successful-batches loop appends no batch-level error record. -/
theorem runOkSeq_batchErrors (now : Nat) :
    ∀ (pre : List BatchFetch) (st : ProgState),
      List.countP isBatchErrorRec (runOkSeq now pre st).errors
        = List.countP isBatchErrorRec st.errors := by
  intro pre
  induction pre with
  | nil => intro st; rfl
  | cons bf pre ih =>
    intro st
    rw [runOkSeq, ih, foldOutcomes_batchErrors]

/-- A batch fetch that throws after a run of successful batches records one
batch error tagged with the failing batch number and stops the loop: the
batches queued after the failure are never consumed. -/
theorem runBatches_error_stop (now : Nat) (msg : String) :
    ∀ (pre : List BatchFetch) (rest : List (Except String BatchFetch)) (st : ProgState),
      (∀ b ∈ pre, b.hasNext = true) →
      runBatches now (pre.map Except.ok ++ Except.error msg :: rest) st
        = (let st2 := runOkSeq now pre st
           { st2 with
             currentBatch := st2.currentBatch + 1,
             errors := st2.errors ++ [ErrorRecord.batchError (st2.currentBatch + 1) msg] }) := by
  intro pre
  induction pre with
  | nil =>
    intro rest st _
    simp [runBatches, runOkSeq]
  | cons bf pre ih =>
    intro rest st hpre
    have hb : bf.hasNext = true := hpre bf (by simp)
    have hpre2 : ∀ b ∈ pre, b.hasNext = true := fun b hb2 => hpre b (by simp [hb2])
    rw [List.map_cons, List.cons_append, runBatches, hb]
    simp only [if_true]
    rw [ih rest _ hpre2]
    simp [runOkSeq]

/-- The completion message of the normal summary is never empty. -/
theorem summary_message_ne_empty (x y : Nat) :
    ("Processed " ++ toString x ++ " variants across " ++ toString y ++ " batches") ≠ "" := by
  intro h
  have h2 := congrArg String.length h
  rw [String.length_append, String.length_append, String.length_append,
    String.length_append] at h2
  have h3 : ("Processed " : String).length = 10 := rfl
  have h4 : ("" : String).length = 0 := rfl
  rw [h3, h4] at h2
  omega

/-- The processed count of a finished run is the number of admitted tasks. -/
theorem processVariants_processed (env : RunEnv) :
    (processVariantsInBackground env).processedVariants = admittedCount env.batches := by
  rw [processVariantsInBackground]
  dsimp only
  rw [runBatches_processed, startProgress_processed]
  simp

/-- The total count of a finished run is the reset tracker's total count. -/
theorem processVariants_totalVariants (env : RunEnv) :
    (processVariantsInBackground env).totalVariants
      = (startProgress env.now env.countEstimate).totalVariants := by
  rw [processVariantsInBackground]
  dsimp only
  rw [runBatches_totalVariants]

/-- Claim C1 (corrected): when a batch fetch throws after `pre` successful
batches, the run terminates at that batch without consuming any later batch
fetch (the result does not depend on what would have followed), exactly one
`batchError` record is appended to the progress errors, and the run is
finalized — but with the normal `success: true` summary of app._index.jsx
lines 339-345, not a `success: false` one: the loop's catch absorbs the
batch failure, so the outer catch that builds the failure summary never
runs.  The summary still carries a non-empty message. -/
theorem claim_c1_batchErrorRun (env : RunEnv) (pre : List BatchFetch) (msg : String)
    (rest rest2 : List (Except String BatchFetch))
    (hpre : ∀ b ∈ pre, b.hasNext = true) :
    processVariantsInBackground
        { env with batches := pre.map Except.ok ++ Except.error msg :: rest }
      = processVariantsInBackground
        { env with batches := pre.map Except.ok ++ Except.error msg :: rest2 }
    ∧ (processVariantsInBackground
        { env with batches := pre.map Except.ok ++ Except.error msg :: rest }).currentBatch
      = pre.length + 1
    ∧ List.countP isBatchErrorRec
        (processVariantsInBackground
          { env with batches := pre.map Except.ok ++ Except.error msg :: rest }).errors = 1
    ∧ (processVariantsInBackground
        { env with batches := pre.map Except.ok ++ Except.error msg :: rest }).isProcessing
      = false
    ∧ (processVariantsInBackground
        { env with batches := pre.map Except.ok ++ Except.error msg :: rest }).completedAt
      = some env.now
    ∧ ∃ s, (processVariantsInBackground
          { env with batches := pre.map Except.ok ++ Except.error msg :: rest }).summary
        = some s ∧ s.success = true ∧ s.message ≠ "" := by
  have key : ∀ rst : List (Except String BatchFetch),
      processVariantsInBackground
          { env with batches := pre.map Except.ok ++ Except.error msg :: rst }
        = (let st2 := runOkSeq env.now pre (startProgress env.now env.countEstimate)
           let stE : ProgState :=
             { st2 with
               currentBatch := st2.currentBatch + 1,
               errors := st2.errors ++ [ErrorRecord.batchError (st2.currentBatch + 1) msg] }
           { stE with
             isProcessing := false
             completedAt := some env.now
             summary := some (Summary.ok stE.processedVariants stE.totalVariants stE.currentBatch
               ("Processed " ++ toString stE.processedVariants ++ " variants across "
                 ++ toString stE.currentBatch ++ " batches")) }) := by
    intro rst
    have hstop := runBatches_error_stop env.now msg pre rst
      (startProgress env.now env.countEstimate) hpre
    show (let st := runBatches env.now (pre.map Except.ok ++ Except.error msg :: rst)
            (startProgress env.now env.countEstimate)
          { st with
            isProcessing := false
            completedAt := some env.now
            summary := some (Summary.ok st.processedVariants st.totalVariants st.currentBatch
              ("Processed " ++ toString st.processedVariants ++ " variants across "
                ++ toString st.currentBatch ++ " batches")) }) = _
    rw [hstop]
  refine ⟨by rw [key rest, key rest2], ?_, ?_, ?_, ?_, ?_⟩
  · rw [key rest]
    dsimp only
    rw [runOkSeq_currentBatch, startProgress_currentBatch]
    omega
  · rw [key rest]
    dsimp only
    rw [List.countP_append, runOkSeq_batchErrors, startProgress_errors]
    rfl
  · rw [key rest]
  · rw [key rest]
  · rw [key rest]
    dsimp only
    exact ⟨_, rfl, rfl, summary_message_ne_empty _ _⟩

/-- Counterexample for C1 as stated: in `envC1x` the second batch fetch
throws, the run stops with exactly one `batchError` — yet the finalized
summary is the normal one with `success = true` ("Processed 1 variants
across 2 batches"), not `success = false` with a failure message as the
claim asserts. -/
theorem claim_c1_counterexample :
    (processVariantsInBackground envC1x).errors
      = [ErrorRecord.batchError 2 "network timeout"]
    ∧ (processVariantsInBackground envC1x).summary
      = some (Summary.ok 1 0 2 "Processed 1 variants across 2 batches")
    ∧ (processVariantsInBackground envC1x).summary.map Summary.success = some true := by
  decide

/-- Witness for C1 (amended): the batch-error theorem at one concrete
successful batch followed by a throwing fetch, with two different queued
continuations. -/
theorem claim_c1_witness :
    (∀ b ∈ [bfW], b.hasNext = true)
    ∧ (processVariantsInBackground
          { envRW with batches := [bfW].map Except.ok ++ Except.error "boom" :: [] }
        = processVariantsInBackground
          { envRW with batches := [bfW].map Except.ok ++ Except.error "boom"
              :: [Except.ok { variants := [vOkB], hasNext := false }] }
      ∧ (processVariantsInBackground
          { envRW with batches := [bfW].map Except.ok ++ Except.error "boom" :: [] }).currentBatch
        = [bfW].length + 1
      ∧ List.countP isBatchErrorRec
          (processVariantsInBackground
            { envRW with batches := [bfW].map Except.ok ++ Except.error "boom" :: [] }).errors = 1
      ∧ (processVariantsInBackground
          { envRW with batches := [bfW].map Except.ok ++ Except.error "boom" :: [] }).isProcessing
        = false
      ∧ (processVariantsInBackground
          { envRW with batches := [bfW].map Except.ok ++ Except.error "boom" :: [] }).completedAt
        = some envRW.now
      ∧ ∃ s, (processVariantsInBackground
            { envRW with batches := [bfW].map Except.ok ++ Except.error "boom" :: [] }).summary
          = some s ∧ s.success = true ∧ s.message ≠ "") :=
  ⟨by decide,
    claim_c1_batchErrorRun envRW [bfW] "boom" []
      [Except.ok { variants := [vOkB], hasNext := false }] (by decide)⟩

/-- Claim C7 (corrected): within a run, `processedVariants` is incremented
exactly once per admitted task regardless of outcome, the batch loop never
decreases it, and at completion it equals the number of admitted tasks.  The
bound by `totalVariants` holds only under the extra assumption that the
best-effort estimate is at least the number of admitted tasks — the code
never enforces it. -/
theorem claim_c7_processedCount (env : RunEnv) :
    (processVariantsInBackground env).processedVariants = admittedCount env.batches
    ∧ (∀ (bs : List (Except String BatchFetch)) (st : ProgState),
        st.processedVariants ≤ (runBatches env.now bs st).processedVariants)
    ∧ (∀ (st : ProgState) (o : TaskOutcome),
        (foldOutcome st o).processedVariants = st.processedVariants + 1)
    ∧ (∀ t, env.countEstimate = some t → admittedCount env.batches ≤ t →
        (processVariantsInBackground env).processedVariants
          ≤ (processVariantsInBackground env).totalVariants) := by
  refine ⟨processVariants_processed env,
    fun bs st => runBatches_monotone env.now bs st,
    fun st o => foldOutcome_processed st o, ?_⟩
  intro t ht hle
  rw [processVariants_processed, processVariants_totalVariants, ht, startProgress_total_some]
  exact hle

/-- Counterexample for C7 as stated: in `envC7x` the estimate reports a
total of 1 variant but the pagination yields 2, so at completion
`processedVariants = 2` exceeds `totalVariants = 1 > 0`, violating the
claimed bound. -/
theorem claim_c7_counterexample :
    (processVariantsInBackground envC7x).totalVariants = 1
    ∧ 0 < (processVariantsInBackground envC7x).totalVariants
    ∧ ¬((processVariantsInBackground envC7x).processedVariants
        ≤ (processVariantsInBackground envC7x).totalVariants) := by
  decide

/-- Witness for C7 (amended): with a consistent estimate (5 ≥ 1 admitted
task) the processed count stays within the total. -/
theorem claim_c7_witness :
    envC7w.countEstimate = some 5
    ∧ admittedCount envC7w.batches ≤ 5
    ∧ (processVariantsInBackground envC7w).processedVariants
        ≤ (processVariantsInBackground envC7w).totalVariants :=
  ⟨rfl, by decide, (claim_c7_processedCount envC7w).2.2.2 5 rfl (by decide)⟩

/-- Claim C9 (corrected): the orchestrator builds one task per item of the
batch — not only for items with a tracking unit; an item whose
`inventoryItem` is null yields a task that fails as an `apiError` (the
`.id` access throws inside the task's try/catch).  For an item with a unit
whose fetch and write succeed, the written snapshot's records carry the
numeric id extracted from the location's gid, the location name, the
available quantity defaulting to 0 when missing, and the current time. -/
theorem claim_c9_taskConstruction (now : Nat) (variants : List VariantEnv) :
    (variants.map (runVariantTask now)).length = variants.length
    ∧ (∀ v ∈ variants, v.inventoryItem = none →
        runVariantTask now v = TaskOutcome.apiError v.variantId
          "TypeError: Cannot read properties of null (reading id)")
    ∧ (∀ v ∈ variants, ∀ u, v.inventoryItem = some u →
        ∀ levels, v.invFetch = Except.ok levels → v.writeRes = Except.ok [] →
        runVariantTask now v = TaskOutcome.success v.variantId
          ⟨levels.map (fun lvl =>
            { id := gidNumericId lvl.locationGid
              name := lvl.locationName
              available := jsOrIntZero lvl.quantities.head?
              updatedAt := now })⟩) := by
  refine ⟨List.length_map _ _, ?_, ?_⟩
  · intro v _ h
    simp [runVariantTask, h]
  · intro v _ u hu levels hl hw
    simp [runVariantTask, hu, hl, hw]

/-- Counterexample for C9 as stated: a batch holding one unit-less item
still gets one task built (the claim requires zero), that task ends as an
`apiError`, and the orchestrator counts it as processed. -/
theorem claim_c9_counterexample :
    ([vNoUnit].map (runVariantTask 0)).length = 1
    ∧ ([vNoUnit].filter (fun v => v.inventoryItem.isSome)).length = 0
    ∧ runVariantTask 0 vNoUnit
      = TaskOutcome.apiError "gid://shopify/ProductVariant/9"
          "TypeError: Cannot read properties of null (reading id)"
    ∧ (processVariantsInBackground envC9).processedVariants = 1 := by
  decide

/-- Witness for C9 (amended): the task-construction theorem applied to one
concrete unit-bearing variant whose single level has an empty quantities
list, exercising the default-to-0 of the available quantity. -/
theorem claim_c9_witness :
    vWithUnit.inventoryItem = some "gid://shopify/InventoryItem/3"
    ∧ vWithUnit.invFetch = Except.ok [lvlW0]
    ∧ vWithUnit.writeRes = Except.ok []
    ∧ runVariantTask 0 vWithUnit = TaskOutcome.success vWithUnit.variantId
        ⟨[lvlW0].map (fun lvl =>
          { id := gidNumericId lvl.locationGid
            name := lvl.locationName
            available := jsOrIntZero lvl.quantities.head?
            updatedAt := 0 })⟩ :=
  ⟨rfl, rfl, rfl,
    (claim_c9_taskConstruction 0 [vWithUnit]).2.2 vWithUnit (List.mem_singleton.mpr rfl)
      "gid://shopify/InventoryItem/3" rfl [lvlW0] rfl rfl⟩

/-- Mapping levels that all carry at least one quantity entry succeeds and
preserves the list length. -/
theorem mapRecords_ok (now : Nat) :
    ∀ (ls : List InvLevel), (∀ lvl ∈ ls, lvl.quantities ≠ []) →
      ∃ rs, mapRecords now ls = Except.ok rs ∧ rs.length = ls.length := by
  intro ls
  induction ls with
  | nil => intro _; exact ⟨[], rfl, rfl⟩
  | cons lvl ls ih =>
    intro hq
    have h1 : lvl.quantities ≠ [] := hq lvl (by simp)
    have h2 : ∀ l2 ∈ ls, l2.quantities ≠ [] := fun l2 hm => hq l2 (by simp [hm])
    rcases ih h2 with ⟨rs, hrs, hlen⟩
    rcases hql : lvl.quantities with _ | ⟨q, qs⟩
    · exact absurd hql h1
    · refine ⟨({ id := gidNumericId lvl.locationGid, name := lvl.locationName, available := jsOrZeroInt q, updatedAt := now } : LocationRecord) :: rs, ?_, ?_⟩
      · rw [mapRecords, mkBootstrapRecord, hql, hrs]
      · simp [hlen]

/-- Mapping levels of which one has an empty quantities list throws. -/
theorem mapRecords_error (now : Nat) :
    ∀ (ls : List InvLevel), (∃ lvl ∈ ls, lvl.quantities = []) →
      ∃ e, mapRecords now ls = Except.error e := by
  intro ls
  induction ls with
  | nil => rintro ⟨lvl, hm, _⟩; simp at hm
  | cons lvl ls ih =>
    rintro ⟨l2, hm, hq⟩
    rcases List.mem_cons.mp hm with h1 | h1
    · subst h1
      refine ⟨"TypeError: Cannot read properties of undefined (reading quantity)", ?_⟩
      rw [mapRecords, mkBootstrapRecord, hq]
    · rcases hql : lvl.quantities with _ | ⟨q, qs⟩
      · exact ⟨"TypeError: Cannot read properties of undefined (reading quantity)",
          by rw [mapRecords, mkBootstrapRecord, hql]⟩
      · rcases ih ⟨l2, h1, hq⟩ with ⟨e, he⟩
        refine ⟨e, ?_⟩
        rw [mapRecords, mkBootstrapRecord, hql, he]

/-- On the empty-metafield branch the handler is the bootstrap fetch
followed by the conditional merge (which runs only when the rebuilt list is
empty) and the final write. -/
theorem handleInventoryUpdate_emptyStored (env : WebhookEnv) (p : Payload)
    (hv : env.variantExists = true) (hse : storedEmpty env.stored = true) :
    handleInventoryUpdate env p =
      match bootstrapLocations env with
      | Except.error e => Except.error e
      | Except.ok ls =>
        if env.writeErrors then Except.error "Failed to update metafield"
        else Except.ok (if ls.length == 0 then SnapshotData.mk (mergeStep env p ls)
          else ⟨ls⟩) := by
  rw [handleInventoryUpdate, hv]
  cases hb : bootstrapLocations env with
  | error e => simp [hse, hb, Except.map]
  | ok ls =>
    by_cases hz : ls.length == 0
    · simp [hse, hb, Except.map, hz]
    · simp [hse, hb, Except.map, hz]

/-- Claim C2 (corrected): an empty stored metafield value is treated exactly
like an absent one — the handler behaves identically on both and takes the
bootstrap path — but an unparseable (malformed, non-empty) stored value is
not: `JSON.parse` at inventory.jsx line 305 is not guarded, so the parse
error escapes the handler instead of falling back to the bootstrap path. -/
theorem claim_c2_decodeFallback :
    (∀ (env : WebhookEnv) (p : Payload),
      handleInventoryUpdate { env with stored := StoredValue.emptyStr } p
        = handleInventoryUpdate { env with stored := StoredValue.absent } p)
    ∧ (∀ (env : WebhookEnv) (p : Payload),
      handleInventoryUpdate { env with variantExists := true, stored := StoredValue.malformed } p
        = Except.error "SyntaxError: Unexpected token in JSON at position 0") := by
  constructor
  · intro env p
    rfl
  · intro env p
    simp [handleInventoryUpdate, storedEmpty, parseStored]

/-- Counterexample for C2 as stated: with a malformed stored value the
handler raises the parse error, while the identical environment with an
absent stored value succeeds through the bootstrap rebuild — so malformed is
not treated like absent and the decode error does escape the handler. -/
theorem claim_c2_counterexample :
    handleInventoryUpdate envMalformed pW
      = Except.error "SyntaxError: Unexpected token in JSON at position 0"
    ∧ handleInventoryUpdate { envMalformed with stored := StoredValue.absent } pW
      = Except.ok ⟨[{ id := some 11, name := "A", available := 4, updatedAt := 9 },
                    { id := some 22, name := "B", available := 9, updatedAt := 9 }]⟩ := by
  decide

/-- Claim C4: merging an update into an existing parsed snapshot writes the
upserted location list: if a record with the payload's locationId exists the
list keeps its size and that record is replaced in place, otherwise the new
record is appended and the size grows by one; the merged record's available
is the payload value coerced to an integer (non-numeric coerces to 0) and
its updatedAt is the current time. -/
theorem claim_c4_merge (env : WebhookEnv) (d : SnapshotData) (p : Payload) :
    handleInventoryUpdate
        { env with variantExists := true, stored := StoredValue.valid d, writeErrors := false } p
      = Except.ok ⟨mergeStep env p d.locations⟩
    ∧ ((∃ r ∈ d.locations, jsEqId r.id (some p.location_id) = true) →
        (mergeStep env p d.locations).length = d.locations.length
        ∧ mergeStep env p d.locations
          = d.locations.set (d.locations.findIdx fun loc => jsEqId loc.id (some p.location_id))
              (updatedLocationRecord env p))
    ∧ ((∀ r ∈ d.locations, jsEqId r.id (some p.location_id) = false) →
        mergeStep env p d.locations = d.locations ++ [updatedLocationRecord env p]
        ∧ (mergeStep env p d.locations).length = d.locations.length + 1)
    ∧ (updatedLocationRecord env p).available = availCoerce p.available
    ∧ (updatedLocationRecord env p).updatedAt = env.now := by
  refine ⟨rfl, ?_, ?_, rfl, rfl⟩
  · rintro ⟨r, hr, hmatch⟩
    have hidx : (d.locations.findIdx fun loc => jsEqId loc.id (some p.location_id))
        < d.locations.length :=
      List.findIdx_lt_length.mpr ⟨r, hr, hmatch⟩
    have hm : mergeStep env p d.locations
        = d.locations.set (d.locations.findIdx fun loc => jsEqId loc.id (some p.location_id))
            (updatedLocationRecord env p) := by
      rw [mergeStep]
      rw [if_pos hidx]
    exact ⟨by rw [hm, List.length_set], hm⟩
  · intro hnone
    have hidx : ¬((d.locations.findIdx fun loc => jsEqId loc.id (some p.location_id))
        < d.locations.length) := by
      intro hlt
      rcases List.findIdx_lt_length.mp hlt with ⟨x, hx, hpx⟩
      rw [hnone x hx] at hpx
      exact absurd hpx (by simp)
    have hm : mergeStep env p d.locations
        = d.locations ++ [updatedLocationRecord env p] := by
      rw [mergeStep]
      rw [if_neg hidx]
    exact ⟨hm, by rw [hm]; simp⟩

/-- Witness for C4: the merge theorem at the concrete snapshot `dW` (one
record for location 7) and payload `pW` (location 7, available "12"): the
record is replaced in place, size stays 1, and the handler writes the
merged snapshot. -/
theorem claim_c4_witness :
    (∃ r ∈ dW.locations, jsEqId r.id (some pW.location_id) = true)
    ∧ ((mergeStep envW4 pW dW.locations).length = dW.locations.length
      ∧ mergeStep envW4 pW dW.locations
        = dW.locations.set (dW.locations.findIdx fun loc => jsEqId loc.id (some pW.location_id))
            (updatedLocationRecord envW4 pW))
    ∧ handleInventoryUpdate
        { envW4 with variantExists := true, stored := StoredValue.valid dW, writeErrors := false } pW
      = Except.ok ⟨mergeStep envW4 pW dW.locations⟩ :=
  ⟨by decide, (claim_c4_merge envW4 dW pW).2.1 (by decide), (claim_c4_merge envW4 dW pW).1⟩

/-- Claim C5 (corrected): with no prior snapshot and a fetched level list of
length at least two whose levels each carry a quantity entry, the rebuilt
snapshot is written as the new baseline and the single-location merge step
is skipped (the written value is exactly the bootstrap list, independent of
the payload).  But when the fetched list is empty the handler throws at the
unconditional `edges[0].node` debug log — it does not perform the merge step
the claim asserts. -/
theorem claim_c5_bootstrapBaseline (env : WebhookEnv) (p : Payload) :
    ((env.stored = StoredValue.absent ∨ env.stored = StoredValue.emptyStr) →
      env.variantExists = true → env.fetchErrors = false → env.writeErrors = false →
      2 ≤ env.fetchedLevels.length → (∀ lvl ∈ env.fetchedLevels, lvl.quantities ≠ []) →
      ∃ ls, bootstrapLocations env = Except.ok ls ∧ ls ≠ []
        ∧ ls.length = env.fetchedLevels.length
        ∧ handleInventoryUpdate env p = Except.ok ⟨ls⟩)
    ∧ ((env.stored = StoredValue.absent ∨ env.stored = StoredValue.emptyStr) →
      env.variantExists = true → env.fetchedLevels = [] →
      handleInventoryUpdate env p
        = Except.error "TypeError: Cannot read properties of undefined (reading node)") := by
  constructor
  · intro hs hv hf hw hlen hq
    rcases mapRecords_ok env.now env.fetchedLevels hq with ⟨rs, hrs, hrlen⟩
    have hboot : bootstrapLocations env = Except.ok rs := by
      rw [bootstrapLocations, if_neg (by omega), if_neg (by simp [hf]), hrs]
    have hse : storedEmpty env.stored = true := by
      rcases hs with h2 | h2 <;> rw [h2] <;> rfl
    have hne : rs ≠ [] := by
      intro h0
      rw [h0] at hrlen
      simp at hrlen
      omega
    refine ⟨rs, hboot, hne, hrlen, ?_⟩
    rw [handleInventoryUpdate_emptyStored env p hv hse, hboot]
    have hz : (rs.length == 0) = false := by
      rw [hrlen]
      cases h : env.fetchedLevels.length == 0
      · rfl
      · exfalso
        have h2 : env.fetchedLevels.length = 0 := by simpa using h
        omega
    simp [hw, hz]
  · intro hs hv hempty
    have hse : storedEmpty env.stored = true := by
      rcases hs with h2 | h2 <;> rw [h2] <;> rfl
    rw [handleInventoryUpdate_emptyStored env p hv hse]
    rw [bootstrapLocations, if_pos (by rw [hempty]; simp)]

/-- Counterexample for C5 as stated: with no prior snapshot and an empty
fetched level list the handler throws (at the `edges[0].node` log) instead
of still performing the single-location merge step as the claim asserts —
no snapshot is written at all. -/
theorem claim_c5_counterexample :
    handleInventoryUpdate envBootEmpty pW
      = Except.error "TypeError: Cannot read properties of undefined (reading node)" := by
  decide

/-- Witness for C5 (amended): the bootstrap theorem at a concrete
environment with two fetched levels: the rebuilt two-record snapshot is
written unchanged, with the payload's location 7 nowhere in it. -/
theorem claim_c5_witness :
    (envBoot2.stored = StoredValue.absent ∨ envBoot2.stored = StoredValue.emptyStr)
    ∧ envBoot2.variantExists = true
    ∧ envBoot2.fetchErrors = false
    ∧ envBoot2.writeErrors = false
    ∧ 2 ≤ envBoot2.fetchedLevels.length
    ∧ (∀ lvl ∈ envBoot2.fetchedLevels, lvl.quantities ≠ [])
    ∧ ∃ ls, bootstrapLocations envBoot2 = Except.ok ls ∧ ls ≠ []
        ∧ ls.length = envBoot2.fetchedLevels.length
        ∧ handleInventoryUpdate envBoot2 pW = Except.ok ⟨ls⟩ :=
  ⟨Or.inl rfl, rfl, rfl, rfl, by decide, by decide,
    (claim_c5_bootstrapBaseline envBoot2 pW).1 (Or.inl rfl) rfl rfl rfl (by decide) (by decide)⟩

/-- Claim C10: in the bootstrap path the fetched edges list is indexed at
positions 0 and 1 unconditionally (the debug logs of inventory.jsx lines
275-276) and each level's quantities list at position 0 unconditionally
(line 290), so with fewer than two inventory levels, or with any level whose
quantities list is empty, the bootstrap path throws instead of building a
snapshot. -/
theorem claim_c10_bootstrapThrows (env : WebhookEnv) (p : Payload)
    (hv : env.variantExists = true)
    (hs : env.stored = StoredValue.absent ∨ env.stored = StoredValue.emptyStr)
    (h : env.fetchedLevels.length < 2 ∨ ∃ lvl ∈ env.fetchedLevels, lvl.quantities = []) :
    ∃ e, handleInventoryUpdate env p = Except.error e := by
  have hse : storedEmpty env.stored = true := by
    rcases hs with h2 | h2 <;> rw [h2] <;> rfl
  have hboot : ∃ e, bootstrapLocations env = Except.error e := by
    rcases h with hlen | hq
    · exact ⟨_, by rw [bootstrapLocations, if_pos hlen]⟩
    · by_cases hlen : env.fetchedLevels.length < 2
      · exact ⟨_, by rw [bootstrapLocations, if_pos hlen]⟩
      · by_cases hf : env.fetchErrors
        · exact ⟨"Failed to fetch inventory levels.",
            by rw [bootstrapLocations, if_neg hlen, if_pos hf]⟩
        · rcases mapRecords_error env.now env.fetchedLevels hq with ⟨e, he⟩
          exact ⟨e, by rw [bootstrapLocations, if_neg hlen, if_neg (by simp [hf]), he]⟩
  rcases hboot with ⟨e, he⟩
  refine ⟨e, ?_⟩
  rw [handleInventoryUpdate_emptyStored env p hv hse, he]

/-- Witness for C10: the bootstrap-throw theorem at a concrete environment
with exactly one fetched level (fewer than the two the debug logs index). -/
theorem claim_c10_witness :
    envBootOne.variantExists = true
    ∧ (envBootOne.stored = StoredValue.absent ∨ envBootOne.stored = StoredValue.emptyStr)
    ∧ (envBootOne.fetchedLevels.length < 2
      ∨ ∃ lvl ∈ envBootOne.fetchedLevels, lvl.quantities = [])
    ∧ ∃ e, handleInventoryUpdate envBootOne pW = Except.error e :=
  ⟨rfl, Or.inl rfl, Or.inl (by decide),
    claim_c10_bootstrapThrows envBootOne pW rfl (Or.inl rfl) (Or.inl (by decide))⟩

/-- Claim C6: a start request issued while a full sync is already running is
rejected with the explicit "already running" response and the server state —
including every field of the progress tracker — is returned unchanged. -/
theorem claim_c6_alreadyRunning (st : ServerState) (now : Nat) (h : st.isRunning = true) :
    actionModel Intent.start st now
      = (ActionResp.alreadyRunning "Process already running. Please wait for it to complete.",
         st) := by
  simp [actionModel, h]

/-- Witness for C6: the already-running rejection at a concrete running
state. -/
theorem claim_c6_witness :
    stRun.isRunning = true
    ∧ actionModel Intent.start stRun 9
      = (ActionResp.alreadyRunning "Process already running. Please wait for it to complete.",
         stRun) :=
  ⟨rfl, claim_c6_alreadyRunning stRun 9 rfl⟩

/-- Once the one-shot flag is set, every further poll answers the plain
settled state and never spreads the summary again. -/
theorem pollResponses_settled :
    ∀ (n : Nat) (st : ServerState), st.progress.summaryReturned = true →
      pollResponses n st = List.replicate n (ActionResp.progressPlain st.progress) := by
  intro n
  induction n with
  | zero => intro st _; rfl
  | succ n ih =>
    intro st h
    rw [pollResponses]
    simp only [actionModel, h, Bool.not_true, Bool.and_false, Bool.false_and, if_false]
    rw [List.replicate_succ]
    exact congrArg _ (ih st h)

/-- Claim C8: after a run completes (processing stopped, `completedAt` set,
one-shot flag unset), the first status query observes the summary fields
spread into the response; every later query in the poll sequence answers
the settled plain state, and no poll sequence from that state ever observes
the summary fields more than once. -/
theorem claim_c8_summaryOnce (st : ServerState)
    (hproc : st.progress.isProcessing = false)
    (hdone : st.progress.completedAt.isSome = true)
    (hflag : st.progress.summaryReturned = false) :
    (actionModel Intent.getProgress st 0).1
      = ActionResp.progressWithSummary { st.progress with summaryReturned := true }
          st.progress.summary
    ∧ (∀ n, pollResponses (n + 1) st
        = ActionResp.progressWithSummary { st.progress with summaryReturned := true }
            st.progress.summary
          :: List.replicate n
              (ActionResp.progressPlain { st.progress with summaryReturned := true }))
    ∧ (∀ n, summarySpreadCount n st ≤ 1) := by
  have hcond : (!st.progress.isProcessing && st.progress.completedAt.isSome
      && !st.progress.summaryReturned) = true := by
    rw [hproc, hdone, hflag]
    rfl
  have hhead : actionModel Intent.getProgress st 0
      = (ActionResp.progressWithSummary { st.progress with summaryReturned := true }
           st.progress.summary,
         { st with progress := { st.progress with summaryReturned := true } }) := by
    simp only [actionModel, hcond, if_true]
  have htail : ∀ n, pollResponses (n + 1) st
      = ActionResp.progressWithSummary { st.progress with summaryReturned := true }
          st.progress.summary
        :: List.replicate n
            (ActionResp.progressPlain { st.progress with summaryReturned := true }) := by
    intro n
    rw [pollResponses, hhead]
    exact congrArg _ (pollResponses_settled n _ rfl)
  refine ⟨by rw [hhead], htail, ?_⟩
  intro n
  cases n with
  | zero => simp [summarySpreadCount, pollResponses]
  | succ n =>
    rw [summarySpreadCount, htail n, List.countP_cons, List.countP_replicate]
    simp [isSummaryResp]

/-- Witness for C8: the one-shot summary behaviour at a concrete freshly
completed server state, polled repeatedly. -/
theorem claim_c8_witness :
    stDone.progress.isProcessing = false
    ∧ stDone.progress.completedAt.isSome = true
    ∧ stDone.progress.summaryReturned = false
    ∧ ((actionModel Intent.getProgress stDone 0).1
        = ActionResp.progressWithSummary { stDone.progress with summaryReturned := true }
            stDone.progress.summary
      ∧ (∀ n, pollResponses (n + 1) stDone
          = ActionResp.progressWithSummary { stDone.progress with summaryReturned := true }
              stDone.progress.summary
            :: List.replicate n
                (ActionResp.progressPlain { stDone.progress with summaryReturned := true }))
      ∧ (∀ n, summarySpreadCount n stDone ≤ 1)) :=
  ⟨rfl, rfl, rfl, claim_c8_summaryOnce stDone rfl rfl rfl⟩
